import Mathlib

/-!
Shallow embedding of the Ryu SDN controller in
`Course Project/v3/node_discovery.py` (class `SimpleSwitch13`).

Modelling conventions:
* MAC addresses and packet payloads are opaque and represented by `Nat`.
* A switch is identified by its datapath id (`dpid : Nat`).
* The observable behaviour of each event handler is the pair
  (new controller state, list of OpenFlow messages sent via
  `datapath.send_msg`); log/print output is modelled where a claim
  mentions it.
* `randint(0, 255)` draws are modelled by explicit arguments (a single
  `Nat` per draw, or a stream `Nat → Nat` consumed left to right).
* The `Graph` collaborator (`switch_path`, `ports`) is an input of the
  path-programming handler, quantified over in the theorems, exactly as
  the code reads `self.graph.switch_path` / `self.graph.ports`.
-/

/-- OpenFlow 1.3 constant `OFPP_FLOOD` (ryu `ofproto_v1_3`). -/
def OFPP_FLOOD : Nat := 0xfffffffb

/-- OpenFlow 1.3 constant `OFPP_CONTROLLER` (ryu `ofproto_v1_3`). -/
def OFPP_CONTROLLER : Nat := 0xfffffffd

/-- OpenFlow 1.3 constant `OFP_NO_BUFFER` (ryu `ofproto_v1_3`). -/
def OFP_NO_BUFFER : Nat := 0xffffffff

/-- OpenFlow 1.3 constant `OFPCML_NO_BUFFER` (ryu `ofproto_v1_3`). -/
def OFPCML_NO_BUFFER : Nat := 0xffff

/-- Ryu's default `max_len` for `OFPActionOutput` when the argument is
omitted (as in `parser.OFPActionOutput(out_port)`). -/
def OFP_DEFAULT_CML : Nat := 0xffe5

/-- `parser.OFPActionOutput(port, max_len)`: output the packet on `port`. -/
structure OFPActionOutput where
  port : Nat
  max_len : Nat := OFP_DEFAULT_CML
  deriving Repr, DecidableEq

/-- `parser.OFPMatch(...)`: only the fields this program ever sets.
`none` means the field is absent (wildcarded); `OFPMatch()` with both
fields `none` matches every packet. -/
structure OFPMatch where
  in_port : Option Nat := none
  eth_dst : Option Nat := none
  deriving Repr, DecidableEq

/-- A `parser.OFPFlowMod(...)` message as constructed by `add_flow`:
`cookie = none` models the constructor's default cookie (the code either
passes `buffer_id` or passes `cookie=randint(0, 255)`, never both). -/
structure OFPFlowMod where
  dpid : Nat
  buffer_id : Option Nat
  priority : Nat
  flowMatch : OFPMatch
  instructions : List OFPActionOutput
  cookie : Option Nat
  deriving Repr, DecidableEq

/-- A `parser.OFPPacketOut(...)` message as constructed by
`_packet_in_handler`. -/
structure OFPPacketOut where
  dpid : Nat
  buffer_id : Nat
  in_port : Nat
  actions : List OFPActionOutput
  data : Option Nat
  deriving Repr, DecidableEq

/-- A message sent to a device over the control channel
(`datapath.send_msg`). -/
inductive Msg where
  | flowMod : OFPFlowMod → Msg
  | packetOut : OFPPacketOut → Msg
  deriving Repr, DecidableEq

/-- The actions carried by a control-channel message (the flow-mod's
apply-actions instruction, or the packet-out's action list). -/
def msgActions : Msg → List OFPActionOutput
  | .flowMod fm => fm.instructions
  | .packetOut po => po.actions

/-- The device a control-channel message is sent to. -/
def msgDpid : Msg → Nat
  | .flowMod fm => fm.dpid
  | .packetOut po => po.dpid

/-- The priority of a rule-install message (`none` for a packet-out). -/
def flowModPriority? : Msg → Option Nat
  | .flowMod fm => some fm.priority
  | .packetOut _ => none

/-- Whether a message is a rule install (`OFPFlowMod`). -/
def isFlowMod : Msg → Bool
  | .flowMod _ => true
  | .packetOut _ => false

/-- A forwarding decision that reaches the wire: an explicit packet-out,
or a flow-mod carrying a buffer reference (which makes the device apply
the new rule to the buffered packet). -/
def isForwardingDecision : Msg → Bool
  | .flowMod fm => fm.buffer_id.isSome
  | .packetOut _ => true

/-- Association-list lookup (Python dict access `d[k]` / `k in d`),
first match wins. -/
def alistGet {α : Type} : List (Nat × α) → Nat → Option α
  | [], _ => none
  | (k', v) :: rest, k => if k' = k then some v else alistGet rest k

/-- Association-list update (Python `d[k] = v`): overwrite the binding of
`k` if present, else append it. -/
def alistSet {α : Type} : List (Nat × α) → Nat → α → List (Nat × α)
  | [], k, v => [(k, v)]
  | (k', v') :: rest, k, v =>
      if k' = k then (k, v) :: rest else (k', v') :: alistSet rest k v

/-- Per-switch MAC table: MAC address ↦ learned ingress port. -/
abbrev MacPortTable := List (Nat × Nat)

/-- A snapshot of the discovered topology, as stored by `get_topology`
into `self.switches` / `self.links` / `self.hosts`.  Switches are their
dpids, links are `(src dpid, src port, dst dpid, dst port)`, hosts are
their MAC addresses. -/
structure Snapshot where
  switches : List Nat
  links : List (Nat × Nat × Nat × Nat)
  hosts : List Nat
  deriving Repr, DecidableEq

/-- The mutable state of `SimpleSwitch13`: the MAC learning table
(`self.mac_to_port`) and the topology store written by `get_topology`. -/
structure ControllerState where
  mac_to_port : List (Nat × MacPortTable) := []
  topology : Snapshot := ⟨[], [], []⟩
  deriving Repr, DecidableEq

/-- `SimpleSwitch13.add_flow`: build one `OFPFlowMod` and send it.
Python's `if buffer_id:` is truthiness, so both `None` and `0` take the
`else` branch, which draws `cookie=randint(0, 255)` — the draw is the
`rand` argument.  Returns the list of messages sent (always one). -/
def add_flow (dpid priority : Nat) (flowMatch : OFPMatch)
    (actions : List OFPActionOutput) (buffer_id : Option Nat) (rand : Nat) :
    List Msg :=
  if buffer_id ≠ none ∧ buffer_id ≠ some 0 then
    [Msg.flowMod ⟨dpid, buffer_id, priority, flowMatch, actions, none⟩]
  else
    [Msg.flowMod ⟨dpid, none, priority, flowMatch, actions, some rand⟩]

/-- `SimpleSwitch13.switch_features_handler`: on a switch-features event
install the table-miss rule via `add_flow(datapath, 0, OFPMatch(),
[OFPActionOutput(OFPP_CONTROLLER, OFPCML_NO_BUFFER)])`. -/
def switch_features_handler (st : ControllerState) (dpid rand : Nat) :
    ControllerState × List Msg :=
  (st,
    add_flow dpid 0 {}
      [{ port := OFPP_CONTROLLER, max_len := OFPCML_NO_BUFFER }] none rand)

/-- A packet-in event as consumed by `_packet_in_handler`: the fields of
`ev.msg` (and of the parsed Ethernet header) the handler reads. -/
structure PacketInMsg where
  dpid : Nat
  in_port : Nat
  buffer_id : Nat
  src : Nat
  dst : Nat
  data : Nat
  deriving Repr, DecidableEq

/-- `SimpleSwitch13._packet_in_handler`: learn `src ↦ in_port`, look the
destination up (flood if unknown), install a reactive priority-1 rule on
a unicast decision (with the packet's buffer reference when it is not
`OFP_NO_BUFFER`, returning early in that case), otherwise send a
packet-out (with the raw payload when there is no buffer). -/
def packet_in_handler (st : ControllerState) (msg : PacketInMsg)
    (rand : Nat) : ControllerState × List Msg :=
  let table0 := (alistGet st.mac_to_port msg.dpid).getD []
  let table := alistSet table0 msg.src msg.in_port
  let st' := { st with mac_to_port := alistSet st.mac_to_port msg.dpid table }
  let out_port :=
    match alistGet table msg.dst with
    | some p => p
    | none => OFPP_FLOOD
  let actions : List OFPActionOutput := [{ port := out_port }]
  let packetOutMsgs : List Msg :=
    [Msg.packetOut
      ⟨msg.dpid, msg.buffer_id, msg.in_port, actions,
        if msg.buffer_id = OFP_NO_BUFFER then some msg.data else none⟩]
  if out_port ≠ OFPP_FLOOD then
    let flowMatch : OFPMatch :=
      { in_port := some msg.in_port, eth_dst := some msg.dst }
    if msg.buffer_id ≠ OFP_NO_BUFFER then
      (st', add_flow msg.dpid 1 flowMatch actions (some msg.buffer_id) rand)
    else
      (st', add_flow msg.dpid 1 flowMatch actions none rand ++ packetOutMsgs)
  else
    (st', packetOutMsgs)

/-- `SimpleSwitch13.get_topology`, run against a stream of discovery
results (`discover i` is what `get_switch`/`get_link`/`get_host` return
on the `i`-th poll).  The loop re-polls, sleeping 50 ms first, until the
switch count equals the host count; `fuel` bounds the number of polls so
the definition is total — `none` means the loop was still running.
Returns the final topology store together with the list of performed
sleeps (in milliseconds, one entry per loop iteration). -/
def get_topology_loop (discover : Nat → Snapshot) :
    Nat → Nat → Option (Snapshot × List Nat)
  | 0, _ => none
  | fuel + 1, i =>
      if (discover i).switches.length = (discover i).hosts.length then
        some (discover i, [])
      else
        match get_topology_loop discover fuel (i + 1) with
        | none => none
        | some (s', sleeps) => some (s', 50 :: sleeps)

/-- `get_topology` itself: first fetch is poll `0`. -/
def get_topology (discover : Nat → Snapshot) (fuel : Nat) :
    Option (Snapshot × List Nat) :=
  get_topology_loop discover fuel 0

/-- The ingress port `handler_switch_event` computes for the path switch
at position `i`: the host-facing port 1 at the head of the path, else the
port toward the previous hop. -/
def pathInPort (path : List Nat) (ports : Nat → Nat → Nat)
    (src_id i : Nat) : Nat :=
  if i = 0 then 1 else ports src_id (path.getD (i - 1) 0)

/-- The egress port `handler_switch_event` computes for the path switch
at position `i`: the host-facing port 1 at the tail of the path, else the
port toward the next hop. -/
def pathOutPort (path : List Nat) (ports : Nat → Nat → Nat)
    (src_id i : Nat) : Nat :=
  if i = path.length - 1 then 1 else ports src_id (path.getD (i + 1) 0)

/-- The two path rules `handler_switch_event` installs for the switch
with datapath id `dpid` (body of the `for switch in self.switches` loop):
nothing if `dpid - 1` is not in `switch_path`, otherwise the forward rule
(match ingress port, output egress port) and the reverse rule (match
egress port, output ingress port), both at priority 200.  `rand1`/`rand2`
are the two cookie draws. -/
def pathRulesFor (path : List Nat) (ports : Nat → Nat → Nat)
    (dpid rand1 rand2 : Nat) : List Msg :=
  let src_id := dpid - 1
  match path.findIdx? (· = src_id) with
  | none => []
  | some i =>
      let in_port := pathInPort path ports src_id i
      let out_port := pathOutPort path ports src_id i
      add_flow dpid 200 { in_port := some in_port }
          [{ port := out_port }] none rand1 ++
        add_flow dpid 200 { in_port := some out_port }
          [{ port := in_port }] none rand2

/-- The rule-install part of `SimpleSwitch13.handler_switch_event`: for
every discovered switch, install the bidirectional pair of path rules
(or skip the switch when its id is not on the path).  `rng` is the stream
of `randint(0, 255)` draws, consumed two per programmed switch. -/
def installPathRules (path : List Nat) (ports : Nat → Nat → Nat)
    (rng : Nat → Nat) : List Nat → List Msg
  | [] => []
  | dpid :: rest =>
      pathRulesFor path ports dpid (rng 0) (rng 1) ++
        installPathRules path ports (fun n => rng (n + 2)) rest

/-- `SimpleSwitch13.handler_switch_leave`: log only.  Returns the new
state, the messages sent, and the log lines emitted. -/
def handler_switch_leave (st : ControllerState) :
    ControllerState × List Msg × List String :=
  (st, [], ["Not tracking Switches, switch leaved."])

/-- Sequentially handle a list of packet-in events (each paired with its
`randint` draw), keeping only the state — the single-dispatcher timeline
of §5 of the design. -/
def runPacketIns (st : ControllerState) (pkts : List (PacketInMsg × Nat)) :
    ControllerState :=
  pkts.foldl (fun s pr => (packet_in_handler s pr.1 pr.2).1) st

/-- How many of the emitted messages are forwarding decisions that reach
the wire. -/
def countForwardingDecisions (msgs : List Msg) : Nat :=
  (msgs.filter isForwardingDecision).length

/-! ### Helper lemmas about the embedded operations -/

theorem alistGet_set_eq {α : Type} (l : List (Nat × α)) (k : Nat) (v : α) :
    alistGet (alistSet l k v) k = some v := by
  induction l with
  | nil => simp [alistGet, alistSet]
  | cons hd t ih =>
      obtain ⟨k', v'⟩ := hd
      by_cases hk : k' = k <;> simp [alistGet, alistSet, hk, ih]

theorem alistGet_set_ne {α : Type} (l : List (Nat × α)) (k k' : Nat) (v : α)
    (h : k' ≠ k) : alistGet (alistSet l k' v) k = alistGet l k := by
  induction l with
  | nil => simp [alistGet, alistSet, h]
  | cons hd t ih =>
      obtain ⟨k'', v''⟩ := hd
      by_cases hk : k'' = k'
      · subst hk
        simp [alistGet, alistSet, h]
      · by_cases hk2 : k'' = k <;>
          simp [alistGet, alistSet, hk, hk2, Ne.symm h, ih]

/-- Both branches of `add_flow` send a single flow-mod carrying the given
device, priority and action list. -/
theorem add_flow_mem (dpid priority : Nat) (fm : OFPMatch)
    (acts : List OFPActionOutput) (buf : Option Nat) (rand : Nat) :
    ∀ m ∈ add_flow dpid priority fm acts buf rand,
      msgDpid m = dpid ∧ flowModPriority? m = some priority ∧
        msgActions m = acts ∧ isFlowMod m = true := by
  intro m hm
  unfold add_flow at hm
  split at hm <;>
    simp only [List.mem_singleton] at hm <;>
      subst hm <;> exact ⟨rfl, rfl, rfl, rfl⟩

theorem add_flow_length (dpid priority : Nat) (fm : OFPMatch)
    (acts : List OFPActionOutput) (buf : Option Nat) (rand : Nat) :
    (add_flow dpid priority fm acts buf rand).length = 1 := by
  unfold add_flow
  split <;> rfl

/-! ### C10: table-miss rule on switch features -/

/-- C10: on every switch-features event the controller sends exactly one
table-miss flow-mod to that switch — priority `0`, empty match (every
field wildcarded, so it matches every packet), and a single output action
to `OFPP_CONTROLLER` with `OFPCML_NO_BUFFER` — and the controller state
is returned unchanged. -/
theorem switch_features_installs_table_miss (st : ControllerState)
    (dpid rand : Nat) :
    switch_features_handler st dpid rand =
      (st,
        [Msg.flowMod
          ⟨dpid, none, 0, { in_port := none, eth_dst := none },
            [{ port := OFPP_CONTROLLER, max_len := OFPCML_NO_BUFFER }],
            some rand⟩]) := by
  rfl

/-! ### C9: switch-leave handler is log-only -/

/-- C9: a device-detach (switch-leave) event only emits a log line — the
handler sends no control-channel message and leaves the MAC table and
the stored topology (switches, links, hosts) unchanged. -/
theorem switch_leave_logs_only (st : ControllerState) :
    (handler_switch_leave st).2.1 = [] ∧
      (handler_switch_leave st).1.mac_to_port = st.mac_to_port ∧
      (handler_switch_leave st).1.topology = st.topology ∧
      (handler_switch_leave st).2.2 =
        ["Not tracking Switches, switch leaved."] :=
  ⟨rfl, rfl, rfl, rfl⟩

/-! ### C3: buffer reference vs cookie in `add_flow` -/

/-- C3 counterexample: buffer id `0` is a valid buffer reference (it
differs from `OFP_NO_BUFFER`), yet when it is supplied `add_flow` emits a
flow-mod that carries **no** buffer reference and **does** carry a fresh
cookie (here the draw `5`) — because Python's `if buffer_id:` treats `0`
as false.  This refutes the claim that every valid supplied buffer
reference is included (with no cookie). -/
theorem add_flow_buffer_zero_drops_buffer :
    (0 : Nat) ≠ OFP_NO_BUFFER ∧
      add_flow 1 1 { in_port := some 1, eth_dst := some 2 } [{ port := 3 }]
          (some 0) 5 =
        [Msg.flowMod
          ⟨1, none, 1, { in_port := some 1, eth_dst := some 2 },
            [{ port := 3 }], some 5⟩] :=
  ⟨by decide, rfl⟩

/-- C3 amended: `add_flow` always sends exactly one flow-mod; if a valid
**nonzero** buffer reference is supplied the message includes it and no
fresh cookie, and if no buffer reference (or the truthiness-false buffer
id `0`) is supplied the message carries the freshly drawn cookie and no
buffer reference. -/
theorem add_flow_buffer_cookie_amended (dpid priority : Nat)
    (fm : OFPMatch) (acts : List OFPActionOutput) (buf : Option Nat)
    (rand : Nat) :
    (add_flow dpid priority fm acts buf rand).length = 1 ∧
      (∀ b, buf = some b → b ≠ 0 →
        add_flow dpid priority fm acts buf rand =
          [Msg.flowMod ⟨dpid, some b, priority, fm, acts, none⟩]) ∧
      (buf = none ∨ buf = some 0 →
        add_flow dpid priority fm acts buf rand =
          [Msg.flowMod ⟨dpid, none, priority, fm, acts, some rand⟩]) := by
  refine ⟨add_flow_length dpid priority fm acts buf rand, ?_, ?_⟩
  · rintro b rfl hb
    simp [add_flow, hb]
  · rintro (rfl | rfl) <;> simp [add_flow]

/-- Witness for the amended C3 theorem at concrete inputs: a nonzero
buffer reference `7` is carried through, no cookie is set. -/
theorem add_flow_buffer_cookie_amended_witness :
    add_flow 1 1 { in_port := none, eth_dst := none } [{ port := 2 }]
        (some 7) 5 =
      [Msg.flowMod
        ⟨1, some 7, 1, { in_port := none, eth_dst := none }, [{ port := 2 }],
          none⟩] :=
  (add_flow_buffer_cookie_amended 1 1 { in_port := none, eth_dst := none }
      [{ port := 2 }] (some 7) 5).2.1 7 rfl (by decide)

/-! ### C2: exactly one forwarding decision per packet-in -/

/-- C2 counterexample: a packet-in with the valid buffer reference `0`
(`0 ≠ OFP_NO_BUFFER`) and a known destination produces **no** forwarding
decision on the wire: the handler returns right after `add_flow`, and
`add_flow`'s truthiness check drops the buffer reference from the
flow-mod, so neither a packet-out nor a device-side buffer resolution is
emitted.  The claim's "never neither" fails. -/
theorem packet_in_buffer_zero_no_decision :
    (0 : Nat) ≠ OFP_NO_BUFFER ∧
      countForwardingDecisions
        (packet_in_handler
          { mac_to_port := [(1, [(2, 2)])], topology := ⟨[], [], []⟩ }
          { dpid := 1, in_port := 1, buffer_id := 0, src := 5, dst := 2,
            data := 0 } 9).2 = 0 :=
  ⟨by decide, by decide⟩

/-- C2 amended: for every packet-in whose buffer reference is not the
value `0` (which Python truthiness conflates with "absent"), exactly one
forwarding decision reaches the wire — an explicit packet-out, or a
flow-mod carrying the packet's buffer reference — never both, never
neither, across all combinations of destination known/unknown and buffer
reference present/absent. -/
theorem packet_in_exactly_one_decision (st : ControllerState)
    (msg : PacketInMsg) (rand : Nat) (hbuf : msg.buffer_id ≠ 0) :
    countForwardingDecisions (packet_in_handler st msg rand).2 = 1 := by
  simp only [packet_in_handler]
  split
  · split
    · simp [add_flow, countForwardingDecisions, isForwardingDecision, hbuf,
        List.filter]
    · simp [add_flow, countForwardingDecisions, isForwardingDecision,
        List.filter]
  · simp [countForwardingDecisions, isForwardingDecision, List.filter]

/-- Witness for the amended C2 theorem: unknown destination, no buffer —
the single decision is the flood packet-out. -/
theorem packet_in_exactly_one_decision_witness :
    countForwardingDecisions
      (packet_in_handler { mac_to_port := [], topology := ⟨[], [], []⟩ }
        { dpid := 1, in_port := 1, buffer_id := OFP_NO_BUFFER, src := 5,
          dst := 2, data := 0 } 9).2 = 1 :=
  packet_in_exactly_one_decision _ _ _ (by decide)

/-! ### C6: convergence wait -/

/-- The polling loop of `get_topology`, started at poll index `i`: if the
switch-count/host-count equality first holds at poll `i + n`, the loop
returns that snapshot after `n` sleeps of 50 ms. -/
theorem get_topology_loop_spec (discover : Nat → Snapshot) :
    ∀ n i,
      (∀ j, j < n →
        (discover (i + j)).switches.length ≠ (discover (i + j)).hosts.length) →
      (discover (i + n)).switches.length = (discover (i + n)).hosts.length →
      get_topology_loop discover (n + 1) i =
        some (discover (i + n), List.replicate n 50) := by
  intro n
  induction n with
  | zero =>
      intro i _ heq
      simp only [Nat.add_zero] at heq
      simp [get_topology_loop, heq]
  | succ n ih =>
      intro i hpre heq
      have hne : (discover i).switches.length ≠ (discover i).hosts.length := by
        have := hpre 0 (Nat.succ_pos n)
        simpa using this
      have hrec :
          get_topology_loop discover (n + 1) (i + 1) =
            some (discover (i + 1 + n), List.replicate n 50) := by
        refine ih (i + 1) ?_ ?_
        · intro j hj
          have := hpre (j + 1) (Nat.succ_lt_succ hj)
          have harith : i + (j + 1) = i + 1 + j := by omega
          rwa [harith] at this
        · have harith : i + (n + 1) = i + 1 + n := by omega
          rwa [harith] at heq
      have harith2 : i + 1 + n = i + (n + 1) := by omega
      rw [harith2] at hrec
      conv_lhs => rw [get_topology_loop]
      rw [if_neg hne, hrec]
      rfl

/-- C6: the convergence wait terminates as soon as a poll reports equally
many switches and hosts — in particular, for every topology with that
equality it terminates at once — leaving the topology store holding that
poll's switch/link/host snapshot, after having slept a fixed 50 ms
between each earlier (unequal) poll. -/
theorem get_topology_terminates_on_equality (discover : Nat → Snapshot)
    (n : Nat)
    (hpre : ∀ j, j < n →
      (discover j).switches.length ≠ (discover j).hosts.length)
    (heq : (discover n).switches.length = (discover n).hosts.length) :
    get_topology discover (n + 1) =
      some (discover n, List.replicate n 50) := by
  have h := get_topology_loop_spec discover n 0 ?_ ?_
  · simpa [get_topology] using h
  · intro j hj
    simpa using hpre j hj
  · simpa using heq

/-- Witness: a fixed topology with one switch and one host converges on
the first poll with no sleeps. -/
theorem get_topology_terminates_on_equality_witness :
    get_topology (fun _ => ⟨[1], [(1, 2, 2, 2)], [7]⟩) 1 =
      some (⟨[1], [(1, 2, 2, 2)], [7]⟩, []) :=
  get_topology_terminates_on_equality (fun _ => ⟨[1], [(1, 2, 2, 2)], [7]⟩) 0
    (fun j hj => absurd hj (Nat.not_lt_zero j)) (by decide)

/-! ### C7: unknown destination floods -/

/-- C7: when the destination MAC is not in the handling switch's MAC
table (the table as consulted by the handler, i.e. after the source-learn
step), the handler chooses the flood action, installs no reactive flow
rule, and sends exactly one packet-out carrying that flood action (with
the raw payload when the packet had no buffer reference). -/
theorem packet_in_unknown_dst_floods (st : ControllerState)
    (msg : PacketInMsg) (rand : Nat)
    (hdst :
      alistGet
        (alistSet ((alistGet st.mac_to_port msg.dpid).getD []) msg.src
          msg.in_port) msg.dst = none) :
    (packet_in_handler st msg rand).2 =
      [Msg.packetOut
        ⟨msg.dpid, msg.buffer_id, msg.in_port, [{ port := OFPP_FLOOD }],
          if msg.buffer_id = OFP_NO_BUFFER then some msg.data else none⟩] := by
  simp [packet_in_handler, hdst]

/-- Witness: empty MAC table, destination unknown — the only message is
the flood packet-out with the raw payload. -/
theorem packet_in_unknown_dst_floods_witness :
    (packet_in_handler { mac_to_port := [], topology := ⟨[], [], []⟩ }
      { dpid := 1, in_port := 4, buffer_id := OFP_NO_BUFFER, src := 5,
        dst := 2, data := 3 } 9).2 =
      [Msg.packetOut
        ⟨1, OFP_NO_BUFFER, 4, [{ port := OFPP_FLOOD }], some 3⟩] := by
  have h := packet_in_unknown_dst_floods
    { mac_to_port := [], topology := ⟨[], [], []⟩ }
    { dpid := 1, in_port := 4, buffer_id := OFP_NO_BUFFER, src := 5,
      dst := 2, data := 3 } 9 (by decide)
  simpa using h

/-! ### Path-programming helper lemmas -/

/-- A switch id absent from the path makes `pathRulesFor` emit nothing
(the `continue` branch of `handler_switch_event`). -/
theorem pathRulesFor_skip (path : List Nat) (ports : Nat → Nat → Nat)
    (dpid rand1 rand2 : Nat) (h : (dpid - 1) ∉ path) :
    pathRulesFor path ports dpid rand1 rand2 = [] := by
  have hf : path.findIdx? (fun x => x = dpid - 1) = none := by
    rw [List.findIdx?_eq_none_iff]
    intro x hx
    by_cases hxx : x = dpid - 1
    · exact absurd (hxx ▸ hx) h
    · simp [hxx]
  simp only [pathRulesFor, hf]

/-- Every message `pathRulesFor` emits targets the given switch and has
priority 200. -/
theorem pathRulesFor_fields (path : List Nat) (ports : Nat → Nat → Nat)
    (dpid rand1 rand2 : Nat) :
    ∀ m ∈ pathRulesFor path ports dpid rand1 rand2,
      msgDpid m = dpid ∧ flowModPriority? m = some 200 := by
  intro m hm
  simp only [pathRulesFor] at hm
  split at hm
  · simp at hm
  · simp only [List.mem_append] at hm
    rcases hm with hm | hm <;>
      exact ⟨(add_flow_mem _ _ _ _ _ _ m hm).1,
        (add_flow_mem _ _ _ _ _ _ m hm).2.1⟩

/-- Every message of the path-programming batch comes from the
`pathRulesFor` contribution of one of the discovered switches. -/
theorem installPathRules_mem (path : List Nat) (ports : Nat → Nat → Nat) :
    ∀ (switches : List Nat) (rng : Nat → Nat) (m : Msg),
      m ∈ installPathRules path ports rng switches →
      ∃ d, d ∈ switches ∧ ∃ r1 r2, m ∈ pathRulesFor path ports d r1 r2 := by
  intro switches
  induction switches with
  | nil =>
      intro rng m hm
      simp [installPathRules] at hm
  | cons d rest ih =>
      intro rng m hm
      simp only [installPathRules, List.mem_append] at hm
      rcases hm with hm | hm
      · exact ⟨d, List.mem_cons_self d rest, rng 0, rng 1, hm⟩
      · obtain ⟨d', hd', r1, r2, hm'⟩ := ih (fun n => rng (n + 2)) m hm
        exact ⟨d', List.mem_cons_of_mem d hd', r1, r2, hm'⟩

/-! ### C8: switches off the path are skipped -/

/-- C8: a switch whose (zero-based) identifier has no entry in the
computed `switch_path` gets no rule from the path-programming step — no
flow-mod in the emitted batch is addressed to it. -/
theorem unpathed_switch_skipped (path : List Nat) (ports : Nat → Nat → Nat)
    (rng : Nat → Nat) (switches : List Nat) (d : Nat)
    (hd : (d - 1) ∉ path) :
    (installPathRules path ports rng switches).filter
      (fun m => decide (msgDpid m = d)) = [] := by
  rw [List.filter_eq_nil_iff]
  intro m hm
  simp only [decide_eq_true_eq]
  intro hmd
  obtain ⟨d', hd', r1, r2, hm'⟩ :=
    installPathRules_mem path ports switches rng m hm
  by_cases hdd : d' = d
  · subst hdd
    rw [pathRulesFor_skip path ports d' r1 r2 hd] at hm'
    exact absurd hm' (List.not_mem_nil m)
  · have hfield := (pathRulesFor_fields path ports d' r1 r2 m hm').1
    exact hdd (by rw [← hfield, hmd])

/-- Witness: with path `[0, 1]` (switches 1 and 2), the batch over
discovered switches `[1, 2, 5]` contains no message for switch 5. -/
theorem unpathed_switch_skipped_witness :
    (installPathRules [0, 1] (fun _ _ => 2) (fun _ => 0) [1, 2, 5]).filter
      (fun m => decide (msgDpid m = 5)) = [] :=
  unpathed_switch_skipped [0, 1] (fun _ _ => 2) (fun _ => 0) [1, 2, 5] 5
    (by decide)

/-! ### C4: path rules outrank reactive rules -/

/-- Every flow-mod the packet-in handler emits has priority 1. -/
theorem reactive_flowmod_priority (st : ControllerState)
    (msg : PacketInMsg) (rand : Nat) :
    ∀ m ∈ (packet_in_handler st msg rand).2, ∀ q,
      flowModPriority? m = some q → q = 1 := by
  intro m hm q hq
  simp only [packet_in_handler] at hm
  split at hm
  · split at hm
    · have h1 := (add_flow_mem _ _ _ _ _ _ m hm).2.1
      rw [hq] at h1
      exact (Option.some_inj.mp h1)
    · simp only [List.mem_append] at hm
      rcases hm with hm | hm
      · have h1 := (add_flow_mem _ _ _ _ _ _ m hm).2.1
        rw [hq] at h1
        exact (Option.some_inj.mp h1)
      · simp only [List.mem_singleton] at hm
        subst hm
        simp [flowModPriority?] at hq
  · simp only [List.mem_singleton] at hm
    subst hm
    simp [flowModPriority?] at hq

/-- C4: every rule the path-programming step installs has a strictly
higher priority (200) than every reactive rule the Learning Fallback
installs (1). -/
theorem path_rules_priority_exceeds_reactive (path : List Nat)
    (ports : Nat → Nat → Nat) (rng : Nat → Nat) (switches : List Nat)
    (st : ControllerState) (msg : PacketInMsg) (rand : Nat)
    (mp mr : Msg) (p q : Nat)
    (hmp : mp ∈ installPathRules path ports rng switches)
    (hmr : mr ∈ (packet_in_handler st msg rand).2)
    (hp : flowModPriority? mp = some p)
    (hq : flowModPriority? mr = some q) :
    q < p := by
  obtain ⟨d, _, r1, r2, hm'⟩ :=
    installPathRules_mem path ports switches rng mp hmp
  have hp200 := (pathRulesFor_fields path ports d r1 r2 mp hm').2
  rw [hp] at hp200
  have hpv : p = 200 := Option.some_inj.mp hp200
  have hqv : q = 1 := reactive_flowmod_priority st msg rand mr hmr q hq
  omega

/-- Witness: a concrete priority-200 path rule and a concrete priority-1
reactive rule, `1 < 200`. -/
theorem path_rules_priority_exceeds_reactive_witness : (1 : Nat) < 200 :=
  path_rules_priority_exceeds_reactive [0] (fun _ _ => 7) (fun _ => 0) [1]
    { mac_to_port := [(1, [(2, 2)])], topology := ⟨[], [], []⟩ }
    { dpid := 1, in_port := 1, buffer_id := OFP_NO_BUFFER, src := 5,
      dst := 2, data := 0 } 0
    (Msg.flowMod
      ⟨1, none, 200, { in_port := some 1, eth_dst := none },
        [{ port := 1, max_len := OFP_DEFAULT_CML }], some 0⟩)
    (Msg.flowMod
      ⟨1, none, 1, { in_port := some 1, eth_dst := some 2 },
        [{ port := 2, max_len := OFP_DEFAULT_CML }], some 0⟩)
    200 1 (by decide) (by decide) (by decide) (by decide)

/-! ### C1: 2×N inverse rule pairs -/

/-- On a switch whose id is on the path, `pathRulesFor` emits exactly the
forward rule (match the ingress port, single output action to the egress
port) and the reverse rule with the two ports swapped, `i` being the
switch's position on the path. -/
theorem pathRulesFor_pair (path : List Nat) (ports : Nat → Nat → Nat)
    (dpid rand1 rand2 : Nat) (h : (dpid - 1) ∈ path) :
    ∃ i, path.findIdx? (fun x => x = dpid - 1) = some i ∧
      pathRulesFor path ports dpid rand1 rand2 =
        [Msg.flowMod
          ⟨dpid, none, 200,
            { in_port := some (pathInPort path ports (dpid - 1) i),
              eth_dst := none },
            [{ port := pathOutPort path ports (dpid - 1) i,
               max_len := OFP_DEFAULT_CML }], some rand1⟩,
         Msg.flowMod
          ⟨dpid, none, 200,
            { in_port := some (pathOutPort path ports (dpid - 1) i),
              eth_dst := none },
            [{ port := pathInPort path ports (dpid - 1) i,
               max_len := OFP_DEFAULT_CML }], some rand2⟩] := by
  obtain ⟨i, hi⟩ : ∃ i, path.findIdx? (fun x => x = dpid - 1) = some i := by
    cases hf : path.findIdx? (fun x => x = dpid - 1) with
    | none =>
        rw [List.findIdx?_eq_none_iff] at hf
        have hx := hf (dpid - 1) h
        simp at hx
    | some i => exact ⟨i, rfl⟩
  refine ⟨i, hi, ?_⟩
  simp only [pathRulesFor, hi]
  simp [add_flow]

/-- The batch emitted over a list of discovered switches has twice as
many messages as there are switches whose id lies on the path. -/
theorem installPathRules_length (path : List Nat) (ports : Nat → Nat → Nat) :
    ∀ (switches : List Nat) (rng : Nat → Nat),
      (installPathRules path ports rng switches).length =
        2 * (switches.filter (fun d => decide ((d - 1) ∈ path))).length := by
  intro switches
  induction switches with
  | nil =>
      intro rng
      simp [installPathRules]
  | cons d rest ih =>
      intro rng
      simp only [installPathRules, List.length_append, ih]
      by_cases hd : (d - 1) ∈ path
      · obtain ⟨i, _, hpair⟩ :=
          pathRulesFor_pair path ports d (rng 0) (rng 1) hd
        rw [hpair]
        simp [List.filter_cons, hd]
        omega
      · rw [pathRulesFor_skip path ports d (rng 0) (rng 1) hd]
        simp [List.filter_cons, hd]

/-- Filtering the discovered switches down to those on the path counts
the same as filtering their zero-based ids. -/
theorem filter_path_map_length (path : List Nat) :
    ∀ switches : List Nat,
      (switches.filter (fun d => decide ((d - 1) ∈ path))).length =
        ((switches.map (fun d => d - 1)).filter
          (fun x => decide (x ∈ path))).length := by
  intro switches
  induction switches with
  | nil => rfl
  | cons d rest ih =>
      by_cases hd : (d - 1) ∈ path <;>
        simp [List.filter_cons, hd, ih]

/-- When the path is duplicate-free, the switches' zero-based ids are
duplicate-free, and every path entry is a discovered switch, exactly
`path.length` discovered switches lie on the path. -/
theorem filter_path_length (switches path : List Nat)
    (hpath : path.Nodup)
    (hids : (switches.map (fun d => d - 1)).Nodup)
    (hcov : ∀ x ∈ path, x ∈ switches.map (fun d => d - 1)) :
    (switches.filter (fun d => decide ((d - 1) ∈ path))).length =
      path.length := by
  rw [filter_path_map_length path switches]
  have hperm :
      List.Perm
        ((switches.map (fun d => d - 1)).filter (fun x => decide (x ∈ path)))
        path := by
    apply List.perm_of_nodup_nodup_toFinset_eq (hids.filter _) hpath
    ext x
    simp only [List.mem_toFinset, List.mem_filter, decide_eq_true_eq]
    constructor
    · rintro ⟨-, hx⟩
      exact hx
    · intro hx
      exact ⟨hcov x hx, hx⟩
  exact hperm.length_eq

/-- C1: for a computed, loop-free switch path of length N covered by the
discovered switches (whose ids are distinct), the path-programming step
sends exactly 2×N rule installs, and each switch on the path receives
exactly one forward rule (match its ingress port, single output action to
its egress port) and one reverse rule whose match/action pair is the
exact inverse (match the egress port, single output action to the ingress
port). -/
theorem path_programming_installs_double_inverse_rules
    (switches path : List Nat) (ports : Nat → Nat → Nat) (rng : Nat → Nat)
    (hpath : path.Nodup)
    (hids : (switches.map (fun d => d - 1)).Nodup)
    (hcov : ∀ x ∈ path, x ∈ switches.map (fun d => d - 1)) :
    (installPathRules path ports rng switches).length = 2 * path.length ∧
      ∀ d r1 r2, (d - 1) ∈ path →
        ∃ ip op,
          pathRulesFor path ports d r1 r2 =
            [Msg.flowMod
              ⟨d, none, 200, { in_port := some ip, eth_dst := none },
                [{ port := op, max_len := OFP_DEFAULT_CML }], some r1⟩,
             Msg.flowMod
              ⟨d, none, 200, { in_port := some op, eth_dst := none },
                [{ port := ip, max_len := OFP_DEFAULT_CML }], some r2⟩] := by
  constructor
  · rw [installPathRules_length path ports switches rng,
      filter_path_length switches path hpath hids hcov]
  · intro d r1 r2 hd
    obtain ⟨i, _, hpair⟩ := pathRulesFor_pair path ports d r1 r2 hd
    exact ⟨pathInPort path ports (d - 1) i, pathOutPort path ports (d - 1) i,
      hpair⟩

/-- Witness: a 3-switch line, path `[0, 1, 2]`, switches `[1, 2, 3]` —
the batch holds 2×3 = 6 rule installs. -/
theorem path_programming_installs_double_inverse_rules_witness :
    (installPathRules [0, 1, 2] (fun a b => a + b + 2) (fun _ => 0)
        [1, 2, 3]).length = 2 * ([0, 1, 2] : List Nat).length :=
  (path_programming_installs_double_inverse_rules [1, 2, 3] [0, 1, 2]
      (fun a b => a + b + 2) (fun _ => 0) (by decide) (by decide)
      (by decide)).1

/-! ### C5: MAC-learning round trip -/

/-- The packet-in handler always updates the state the same way: it
overwrites the handling switch's table with the source-learn result. -/
theorem packet_in_state (st : ControllerState) (msg : PacketInMsg)
    (rand : Nat) :
    (packet_in_handler st msg rand).1.mac_to_port =
      alistSet st.mac_to_port msg.dpid
        (alistSet ((alistGet st.mac_to_port msg.dpid).getD []) msg.src
          msg.in_port) := by
  simp only [packet_in_handler]
  split
  · split <;> rfl
  · rfl

/-- One packet-in at another switch, or with another source MAC, keeps an
existing learned entry `S ↦ P` of switch `K` intact. -/
theorem mac_entry_preserved_step (st : ControllerState) (K S P : Nat)
    (msg : PacketInMsg) (rand : Nat)
    (h : alistGet ((alistGet st.mac_to_port K).getD []) S = some P)
    (hmsg : msg.dpid = K → msg.src ≠ S) :
    alistGet
      ((alistGet (packet_in_handler st msg rand).1.mac_to_port K).getD [])
      S = some P := by
  rw [packet_in_state st msg rand]
  by_cases hk : msg.dpid = K
  · subst hk
    rw [alistGet_set_eq, Option.getD_some,
      alistGet_set_ne _ _ _ _ (hmsg rfl)]
    exact h
  · rw [alistGet_set_ne _ _ _ _ hk]
    exact h

/-- A learned entry `S ↦ P` of switch `K` survives any run of packet-ins
in which every packet handled at `K` has a source other than `S`. -/
theorem mac_entry_preserved (K S P : Nat) :
    ∀ (pkts : List (PacketInMsg × Nat)) (st : ControllerState),
      alistGet ((alistGet st.mac_to_port K).getD []) S = some P →
      (∀ pr ∈ pkts, pr.1.dpid = K → pr.1.src ≠ S) →
      alistGet ((alistGet (runPacketIns st pkts).mac_to_port K).getD [])
        S = some P := by
  intro pkts
  induction pkts with
  | nil =>
      intro st h _
      simpa [runPacketIns] using h
  | cons pr rest ih =>
      intro st h hall
      simp only [runPacketIns, List.foldl_cons]
      simp only [runPacketIns] at ih
      exact ih (packet_in_handler st pr.1 pr.2).1
        (mac_entry_preserved_step st K S P pr.1 pr.2 h
          (hall pr (List.mem_cons_self pr rest)))
        (fun q hq => hall q (List.mem_cons_of_mem pr hq))

/-- When the destination lookup (after the source-learn step) hits `S ↦ P`
with `P` not the flood sentinel, every emitted message carries the single
unicast output action to `P`, and at least one message is emitted. -/
theorem packet_in_unicast_actions (st : ControllerState)
    (msg : PacketInMsg) (rand P : Nat)
    (hlook :
      alistGet
        (alistSet ((alistGet st.mac_to_port msg.dpid).getD []) msg.src
          msg.in_port) msg.dst = some P)
    (hPf : P ≠ OFPP_FLOOD) :
    (packet_in_handler st msg rand).2 ≠ [] ∧
      ((packet_in_handler st msg rand).2.all
        (fun m => decide (msgActions m = [{ port := P }]))) = true := by
  simp only [packet_in_handler, hlook]
  rw [if_pos hPf]
  split
  · constructor
    · unfold add_flow
      split <;> simp
    · unfold add_flow
      split <;> simp [msgActions]
  · constructor
    · unfold add_flow
      split <;> simp
    · unfold add_flow
      split <;> simp [msgActions]

/-- C5 counterexample: switch 1 learns MAC 5 at port 1, then a packet
with destination 5 but **source also 5** arrives at port 2.  The handler
re-learns the source before the lookup, so the lookup yields port 2, not
the learned port 1 — every emitted message carries the unicast action to
port 2 (and `2 ≠ 1`), refuting "any later packet whose destination MAC is
S yields a unicast output action to port P". -/
theorem mac_round_trip_self_source_refuted :
    ((packet_in_handler
        (packet_in_handler
          { mac_to_port := [], topology := ⟨[], [], []⟩ }
          { dpid := 1, in_port := 1, buffer_id := OFP_NO_BUFFER, src := 5,
            dst := 9, data := 0 } 0).1
        { dpid := 1, in_port := 2, buffer_id := OFP_NO_BUFFER, src := 5,
          dst := 5, data := 0 } 0).2.all
      (fun m => decide (msgActions m = [{ port := 2 }]))) = true ∧
      (packet_in_handler
        (packet_in_handler
          { mac_to_port := [], topology := ⟨[], [], []⟩ }
          { dpid := 1, in_port := 1, buffer_id := OFP_NO_BUFFER, src := 5,
            dst := 9, data := 0 } 0).1
        { dpid := 1, in_port := 2, buffer_id := OFP_NO_BUFFER, src := 5,
          dst := 5, data := 0 } 0).2 ≠ [] ∧
      (2 : Nat) ≠ 1 :=
  ⟨by decide, by decide, by decide⟩

/-- C5 amended: a MAC address `S` learned at port `P` (not the flood
sentinel) on switch `K` yields, on any later packet at `K` with
destination `S` **whose own source is not `S`** (the handler re-learns
the later packet's source before the lookup), a unicast output action to
port `P` in every emitted message — for any interleaving of packets
learning other MAC addresses at `K` (packets at other switches are
unrestricted). -/
theorem mac_round_trip_amended (st : ControllerState) (K S P : Nat)
    (first : PacketInMsg) (r0 : Nat) (mids : List (PacketInMsg × Nat))
    (final : PacketInMsg) (rf : Nat)
    (hK : first.dpid = K) (hS : first.src = S) (hP : first.in_port = P)
    (hmids : ∀ pr ∈ mids, pr.1.dpid = K → pr.1.src ≠ S)
    (hfK : final.dpid = K) (hfdst : final.dst = S) (hfsrc : final.src ≠ S)
    (hPf : P ≠ OFPP_FLOOD) :
    (packet_in_handler (runPacketIns (packet_in_handler st first r0).1 mids)
        final rf).2 ≠ [] ∧
      ((packet_in_handler
          (runPacketIns (packet_in_handler st first r0).1 mids) final
          rf).2.all (fun m => decide (msgActions m = [{ port := P }]))) =
        true := by
  have h0 :
      alistGet
        ((alistGet (packet_in_handler st first r0).1.mac_to_port K).getD [])
        S = some P := by
    rw [packet_in_state st first r0, hK, hS, hP, alistGet_set_eq,
      Option.getD_some, alistGet_set_eq]
  have h1 := mac_entry_preserved K S P mids
    (packet_in_handler st first r0).1 h0 hmids
  have hlook :
      alistGet
        (alistSet
          ((alistGet
            (runPacketIns (packet_in_handler st first r0).1
              mids).mac_to_port final.dpid).getD [])
          final.src final.in_port) final.dst = some P := by
    rw [hfK, hfdst, alistGet_set_ne _ _ _ _ hfsrc]
    exact h1
  exact packet_in_unicast_actions
    (runPacketIns (packet_in_handler st first r0).1 mids) final rf P hlook
    hPf

/-- Witness: MAC 5 learned at port 1 of switch 1; MAC 6 is learned at the
same switch in between; a later packet from MAC 7 to MAC 5 is unicast out
port 1. -/
theorem mac_round_trip_amended_witness :
    (packet_in_handler
        (runPacketIns
          (packet_in_handler
            { mac_to_port := [], topology := ⟨[], [], []⟩ }
            { dpid := 1, in_port := 1, buffer_id := OFP_NO_BUFFER, src := 5,
              dst := 9, data := 0 } 0).1
          [({ dpid := 1, in_port := 3, buffer_id := OFP_NO_BUFFER, src := 6,
              dst := 9, data := 0 }, 0)])
        { dpid := 1, in_port := 2, buffer_id := OFP_NO_BUFFER, src := 7,
          dst := 5, data := 0 } 0).2 ≠ [] ∧
      ((packet_in_handler
          (runPacketIns
            (packet_in_handler
              { mac_to_port := [], topology := ⟨[], [], []⟩ }
              { dpid := 1, in_port := 1, buffer_id := OFP_NO_BUFFER, src := 5,
                dst := 9, data := 0 } 0).1
            [({ dpid := 1, in_port := 3, buffer_id := OFP_NO_BUFFER, src := 6,
                dst := 9, data := 0 }, 0)])
          { dpid := 1, in_port := 2, buffer_id := OFP_NO_BUFFER, src := 7,
            dst := 5, data := 0 } 0).2.all
        (fun m => decide (msgActions m = [{ port := 1 }]))) = true :=
  mac_round_trip_amended
    { mac_to_port := [], topology := ⟨[], [], []⟩ } 1 5 1
    { dpid := 1, in_port := 1, buffer_id := OFP_NO_BUFFER, src := 5,
      dst := 9, data := 0 } 0
    [({ dpid := 1, in_port := 3, buffer_id := OFP_NO_BUFFER, src := 6,
        dst := 9, data := 0 }, 0)]
    { dpid := 1, in_port := 2, buffer_id := OFP_NO_BUFFER, src := 7,
      dst := 5, data := 0 } 0
    rfl rfl rfl (by decide) rfl rfl (by decide) (by decide)
